import Mathlib

/-!
Verification development for the mini_siem detection-and-response pipeline.

The definitions below are a shallow embedding of the Python sources:
  - `src/mini_siem/config.py`   (DetectorConfig, is_ip_whitelisted),
  - `src/mini_siem/blocker.py`  (ensure_firewall, block_ip, unblock_ip, list_blocked),
  - `src/mini_siem/detector.py` (SlidingWindowCounter, the two auth-log
    patterns, and the per-line body of parse_and_detect).

Conventions of the embedding:
  - Python machine integers are modeled as `Int` (timestamps, durations,
    return codes) or `Nat` (counts and lengths).
  - Python `str` is `String`; helpers named `py...` model the Python string
    builtins used by the sources (`strip`, `splitlines`, `split`,
    `x or y` on strings, `sorted`, `set`).
  - The external tool invocation (`subprocess.run`) is modeled by passing a
    `CompletedProcess` value (returncode, stdout, stderr) explicitly, or,
    for stateful reasoning, a runner `σ → List String → σ × CompletedProcess`.
  - Dictionaries keyed by strings are modeled as total functions from
    `String`, with absent keys mapped to the empty list (this is exactly the
    reading behavior of `defaultdict` / `dict.get` in the sources).
  - Each blocker operation returns, alongside its result, the list of
    `insert_action` calls (audit records) it performs, in order.
-/

/-! ### Python string builtins used by the sources -/

/-- Model of Python `str.strip()`: remove leading and trailing whitespace. -/
def pyStrip (s : String) : String :=
  ⟨((s.data.dropWhile Char.isWhitespace).reverse.dropWhile Char.isWhitespace).reverse⟩

/-- Model of Python truthiness pick `a or b` on strings. -/
def pyOr (a b : String) : String :=
  if a = "" then b else a

/-- `startsWithL pat s`: the char list `s` starts with the literal `pat`
(models Python `str.startswith`). -/
def startsWithL : List Char → List Char → Bool
  | [], _ => true
  | _ :: _, [] => false
  | p :: ps, c :: cs => p = c && startsWithL ps cs

/-- Split a char list at every occurrence of `sep`, keeping empty pieces
(models Python `str.split(sep)` for a one-character separator). -/
def splitOnCharL (sep : Char) : List Char → List (List Char)
  | [] => [[]]
  | c :: cs =>
    let r := splitOnCharL sep cs
    if c = sep then [] :: r
    else
      match r with
      | h :: t => (c :: h) :: t
      | [] => [[c]]

/-- String version of `splitOnCharL`. -/
def splitOnChar (sep : Char) (s : String) : List String :=
  (splitOnCharL sep s.data).map (fun l => ⟨l⟩)

/-- Model of Python `str.splitlines()` for newline-separated text: split on
newline characters; no entry is produced after a final newline. -/
def pySplitlines (s : String) : List String :=
  let parts := splitOnChar '\n' s
  if parts.getLast? = some "" then parts.dropLast else parts

/-- Worker for `pySplitWs`: accumulate the current token (reversed) while
scanning. -/
def wsSplitGo : List Char → List Char → List String
  | cur, [] => if cur = [] then [] else [⟨cur.reverse⟩]
  | cur, c :: cs =>
    if c.isWhitespace then
      if cur = [] then wsSplitGo [] cs else (⟨cur.reverse⟩ : String) :: wsSplitGo [] cs
    else wsSplitGo (c :: cur) cs

/-- Model of Python `str.split()` with no argument: split on whitespace runs,
dropping empty tokens. -/
def pySplitWs (s : String) : List String :=
  wsSplitGo [] s.data

/-- Code-point comparison of strings, as used by Python `sorted` on `str`. -/
def strLeL : List Char → List Char → Bool
  | [], _ => true
  | _ :: _, [] => false
  | a :: as, b :: bs =>
    if a.toNat < b.toNat then true
    else if b.toNat < a.toNat then false
    else strLeL as bs

/-- `pyStrLe a b`: `a <= b` in Python's lexicographic string order. -/
def pyStrLe (a b : String) : Bool :=
  strLeL a.data b.data

/-- Insert a string into a list sorted by `pyStrLe`. -/
def insertSorted (x : String) : List String → List String
  | [] => [x]
  | y :: ys => if pyStrLe x y then x :: y :: ys else y :: insertSorted x ys

/-- Model of Python `sorted` on a list of strings (insertion sort; order
agrees with Python's code-point order). -/
def pySortStrings (l : List String) : List String :=
  l.foldr insertSorted []

/-- Model of Python `set(...)` used only for deduplication before sorting:
drop duplicate strings (which occurrence survives is irrelevant after
sorting). -/
def pyDedup : List String → List String
  | [] => []
  | x :: xs =>
    let r := pyDedup xs
    if x ∈ r then r else x :: r

/-! ### Model of the stdlib `ipaddress` functions called by `config.py`

`ipaddress.ip_address` / `ipaddress.ip_network(..., strict=False)` and network
membership, for the grammar fragments the repository exercises: dotted-quad
IPv4 (1–3 decimal digits per octet, value ≤ 255, no leading zeros), and
hexadecimal-groups IPv6 (groups of 1–4 hex digits, at most one `::`).
Embedded-IPv4-in-IPv6 and zone suffixes are not modeled. A failed parse is
`none` (the Python code catches `ValueError`). -/

/-- Decimal value of a digit list (digits already validated). -/
def digitsVal (cs : List Char) : Nat :=
  cs.foldl (fun acc c => acc * 10 + (c.toNat - 48)) 0

/-- One IPv4 octet: 1–3 decimal digits, no leading zero, value ≤ 255. -/
def decOctet (s : String) : Option Nat :=
  let cs := s.data
  if cs.length = 0 || 3 < cs.length then none
  else if !cs.all Char.isDigit then none
  else if 1 < cs.length && cs.head? = some '0' then none
  else
    let v := digitsVal cs
    if v ≤ 255 then some v else none

/-- Parse a dotted-quad IPv4 literal to its 32-bit value. -/
def parseIPv4 (s : String) : Option Nat :=
  match (splitOnChar '.' s).mapM decOctet with
  | some [a, b, c, d] => some (((a * 256 + b) * 256 + c) * 256 + d)
  | _ => none

/-- Is `c` a hexadecimal digit? -/
def isHexDigitCh (c : Char) : Bool :=
  c.isDigit || (decide ('a' ≤ c) && decide (c ≤ 'f')) || (decide ('A' ≤ c) && decide (c ≤ 'F'))

/-- Value of a hexadecimal digit. -/
def hexVal (c : Char) : Nat :=
  if c.isDigit then c.toNat - 48
  else if decide ('a' ≤ c) && decide (c ≤ 'f') then c.toNat - 87
  else c.toNat - 55

/-- One IPv6 group: 1–4 hex digits (leading zeros allowed). -/
def hexGroup (s : String) : Option Nat :=
  let cs := s.data
  if cs.length = 0 || 4 < cs.length || !cs.all isHexDigitCh then none
  else some (cs.foldl (fun acc c => acc * 16 + hexVal c) 0)

/-- Split a char list at the first `::`, if any. -/
def splitCC : List Char → Option (List Char × List Char)
  | ':' :: ':' :: rest => some ([], rest)
  | c :: cs => (splitCC cs).map (fun p => (c :: p.1, p.2))
  | [] => none

/-- Parse a colon-separated group list. -/
def parseGroups (cs : List Char) : Option (List Nat) :=
  (splitOnCharL ':' cs).mapM (fun g => hexGroup ⟨g⟩)

/-- Combine 16-bit groups (high first) into one value. -/
def ipv6OfGroups (gs : List Nat) : Nat :=
  gs.foldl (fun acc g => acc * 65536 + g) 0

/-- Parse an IPv6 literal (hex-groups grammar) to its 128-bit value. -/
def parseIPv6 (s : String) : Option Nat :=
  let cs := s.data
  match splitCC cs with
  | some (l, r) => do
    let lg ← if l.isEmpty then pure [] else parseGroups l
    let rg ← if r.isEmpty then pure [] else parseGroups r
    if lg.length + rg.length ≤ 7 then
      pure (ipv6OfGroups (lg ++ List.replicate (8 - lg.length - rg.length) 0 ++ rg))
    else none
  | none => do
    let gs ← parseGroups cs
    if gs.length = 8 then pure (ipv6OfGroups gs) else none

/-- An IP address value: family tag plus numeric value. -/
inductive IPAddr where
  | v4 (val : Nat)
  | v6 (val : Nat)
deriving DecidableEq

/-- Model of `ipaddress.ip_address`: try IPv4, then IPv6; `none` on failure. -/
def ip_address (s : String) : Option IPAddr :=
  match parseIPv4 s with
  | some v => some (.v4 v)
  | none => (parseIPv6 s).map .v6

/-- An IP network: family tag, masked network value, prefix length. -/
structure IPNetwork where
  fam4 : Bool
  netVal : Nat
  plen : Nat
deriving DecidableEq

/-- Nonnegative decimal number with no leading zeros (prefix length). -/
def decNum (s : String) : Option Nat :=
  let cs := s.data
  if cs.length = 0 || !cs.all Char.isDigit then none
  else if 1 < cs.length && cs.head? = some '0' then none
  else some (digitsVal cs)

/-- Model of `ipaddress.ip_network(s, strict=False)`: optional `/prefix`
(defaulting to the full length), host bits masked away; `none` on failure. -/
def ip_network (s : String) : Option IPNetwork :=
  match splitOnChar '/' s with
  | [addr] =>
    match ip_address addr with
    | some (.v4 v) => some ⟨true, v, 32⟩
    | some (.v6 v) => some ⟨false, v, 128⟩
    | none => none
  | [addr, p] =>
    match ip_address addr with
    | some (.v4 v) =>
      match decNum p with
      | some pl => if pl ≤ 32 then some ⟨true, v / 2 ^ (32 - pl) * 2 ^ (32 - pl), pl⟩ else none
      | none => none
    | some (.v6 v) =>
      match decNum p with
      | some pl => if pl ≤ 128 then some ⟨false, v / 2 ^ (128 - pl) * 2 ^ (128 - pl), pl⟩ else none
      | none => none
    | none => none
  | _ => none

/-- Model of `addr in network` from `ipaddress` (mismatched families compare
as not-contained, they do not raise). -/
def netContains (nw : IPNetwork) (a : IPAddr) : Bool :=
  match a with
  | .v4 v => nw.fam4 && decide (v / 2 ^ (32 - nw.plen) = nw.netVal / 2 ^ (32 - nw.plen))
  | .v6 v => !nw.fam4 && decide (v / 2 ^ (128 - nw.plen) = nw.netVal / 2 ^ (128 - nw.plen))

/-! ### `config.py` -/

/-- `DetectorConfig` from `config.py`, with the dataclass defaults. -/
structure DetectorConfig where
  failures_threshold : Int := 5
  window_seconds : Int := 180
  block_seconds : Int := 86400
  auth_logs : List String := ["/var/log/auth.log", "/var/log/secure"]
  whitelist : List String :=
    ["127.0.0.1/32", "::1/128", "10.0.0.0/8", "172.16.0.0/12", "192.168.0.0/16"]
  ipset_name : String := "ssh_bruteforce_blacklist"
  iptables_chain : String := "INPUT"

/-- `is_ip_whitelisted` from `config.py`: an unparsable address yields
`false`; whitelist entries that fail to parse as networks are skipped; the
first containing network returns `true`. Total by construction (the Python
`try`/`except` blocks are the `Option` matches). -/
def is_ip_whitelisted (ip : String) (whitelist : List String) : Bool :=
  match ip_address ip with
  | none => false
  | some a =>
    whitelist.any (fun net =>
      match ip_network net with
      | none => false
      | some nw => netContains nw a)

/-! ### `blocker.py` -/

/-- Result of one external tool invocation (`subprocess.run` with captured
output): exit status, stdout, stderr. -/
structure CompletedProcess where
  returncode : Int
  stdout : String
  stderr : String
deriving DecidableEq

/-- One `insert_action` call (an audit record): timestamp, action kind,
address, duration, status, message, mirroring the argument list of
`db.insert_action`. -/
structure AuditRecord where
  ts : Option Int
  action : String
  ip : Option String
  duration : Option Int
  status : String
  msg : Option String
deriving DecidableEq

/-- Second half of `ensure_firewall` (the iptables rule check-then-insert,
lines 27–38 of `blocker.py`), threading the runner state and accumulating
the issued commands. -/
def ensure_rules {σ : Type} (run : σ → List String → σ × CompletedProcess)
    (cfg : DetectorConfig) (s : σ) (cmds : List (List String)) :
    σ × List AuditRecord × List (List String) :=
  let checkCmd := ["iptables", "-C", cfg.iptables_chain, "-m", "set", "--match-set",
    cfg.ipset_name, "src", "-j", "DROP"]
  let p := run s checkCmd
  if p.2.returncode ≠ 0 then
    let insCmd := ["iptables", "-I", cfg.iptables_chain, "-m", "set", "--match-set",
      cfg.ipset_name, "src", "-j", "DROP"]
    let q := run p.1 insCmd
    if q.2.returncode ≠ 0 then
      (q.1, [⟨none, "ensure_firewall", none, none, "error", some (pyStrip q.2.stderr)⟩],
        cmds ++ [checkCmd, insCmd])
    else
      (q.1, [⟨none, "ensure_firewall", none, none, "ok", some "ipset and iptables verified"⟩],
        cmds ++ [checkCmd, insCmd])
  else
    (p.1, [⟨none, "ensure_firewall", none, none, "ok", some "ipset and iptables verified"⟩],
      cmds ++ [checkCmd])

/-- `ensure_firewall` from `blocker.py`: check-then-create the ipset, then
check-then-insert the iptables rule; any failing step records one error
audit record and stops. Returns the runner state, the `insert_action`
calls made (in order), and the commands issued. -/
def ensure_firewall {σ : Type} (run : σ → List String → σ × CompletedProcess)
    (cfg : DetectorConfig) (s0 : σ) : σ × List AuditRecord × List (List String) :=
  let listCmd := ["ipset", "list", cfg.ipset_name]
  let p := run s0 listCmd
  if p.2.returncode ≠ 0 then
    let createCmd := ["ipset", "create", cfg.ipset_name, "hash:ip", "timeout", "0"]
    let q := run p.1 createCmd
    if q.2.returncode ≠ 0 then
      (q.1, [⟨none, "ensure_firewall", none, none, "error", some (pyStrip q.2.stderr)⟩],
        [listCmd, createCmd])
    else ensure_rules run cfg q.1 [listCmd, createCmd]
  else ensure_rules run cfg p.1 [listCmd]

/-- Outcome of `block_ip`: the `insert_action` calls made, the ipset command
issued, and whether the success-only notification hook ran. -/
structure BlockOutcome where
  audits : List AuditRecord
  cmd : List String
  notified : Bool
deriving DecidableEq

/-- `block_ip` from `blocker.py`, as a function of the external tool's
response `res` and the wall-clock second `now`: the ipset timeout argument
is `max 1 duration_seconds`; status is decided by the exit code; the message
is `stdout.strip() or stderr.strip()`, stored as `none` when empty. -/
def block_ip (cfg : DetectorConfig) (ip : String) (duration_seconds : Int) (_reason : String)
    (res : CompletedProcess) (now : Int) : BlockOutcome :=
  let cmd := ["ipset", "add", cfg.ipset_name, ip, "timeout", toString (max 1 duration_seconds)]
  let status := if res.returncode = 0 then "ok" else "error"
  let msg := pyOr (pyStrip res.stdout) (pyStrip res.stderr)
  { audits := [⟨some now, "block", some ip, some duration_seconds, status,
      if msg = "" then none else some msg⟩],
    cmd := cmd,
    notified := status = "ok" }

/-- Outcome of `unblock_ip`: the `insert_action` calls made and the ipset
command issued. -/
structure UnblockOutcome where
  audits : List AuditRecord
  cmd : List String
deriving DecidableEq

/-- `unblock_ip` from `blocker.py`, as a function of the external tool's
response. -/
def unblock_ip (cfg : DetectorConfig) (ip : String) (res : CompletedProcess) (now : Int) :
    UnblockOutcome :=
  let cmd := ["ipset", "del", cfg.ipset_name, ip]
  let status := if res.returncode = 0 then "ok" else "error"
  let msg := pyOr (pyStrip res.stdout) (pyStrip res.stderr)
  { audits := [⟨some now, "unblock", some ip, none, status, if msg = "" then none else some msg⟩],
    cmd := cmd }

/-- `list_blocked` from `blocker.py`, as a function of the external tool's
response: on a nonzero exit status return `[]`; otherwise keep, from each
stripped nonempty line not starting with `Name:` or `Type:`, the first
whitespace token when it has exactly three dots or contains a colon; then
deduplicate and sort. The second component is the list of `insert_action`
calls the function makes (there are none in the source). -/
def list_blocked (_cfg : DetectorConfig) (res : CompletedProcess) :
    List String × List AuditRecord :=
  if res.returncode ≠ 0 then ([], [])
  else
    let ips := (pySplitlines res.stdout).filterMap (fun rawLine =>
      let line := pyStrip rawLine
      if line = "" || startsWithL "Name:".data line.data || startsWithL "Type:".data line.data then
        none
      else
        match pySplitWs line with
        | [] => none
        | p :: _ =>
          if (p.data.filter (fun c => c = '.')).length = 3 || p.data.contains ':' then some p
          else none)
    (pySortStrings (pyDedup ips), [])

/-- State of the modeled firewall backend (spec §6): the named dynamic
address sets that exist, and the rules present in the filter chain
(each rule recorded as chain name followed by its match specification,
newest first since `-I` inserts at the head). -/
structure FwState where
  sets : List String
  rules : List (List String)
deriving DecidableEq

/-- Modelled from the spec: the external firewall backend operation set of
§6 (query set existence, create set, query rule existence, insert rule at
chain head), as a deterministic state machine giving each command its exit
status. Commands outside the modeled surface fail. -/
def execCmd (s : FwState) (cmd : List String) : FwState × CompletedProcess :=
  match cmd with
  | "ipset" :: "list" :: name :: _ =>
    (s, ⟨if name ∈ s.sets then 0 else 1, "", ""⟩)
  | "ipset" :: "create" :: name :: _ =>
    if name ∈ s.sets then (s, ⟨1, "", "set with the same name already exists"⟩)
    else ({ s with sets := name :: s.sets }, ⟨0, "", ""⟩)
  | "iptables" :: "-C" :: chain :: spec =>
    (s, ⟨if (chain :: spec) ∈ s.rules then 0 else 1, "", ""⟩)
  | "iptables" :: "-I" :: chain :: spec =>
    ({ s with rules := (chain :: spec) :: s.rules }, ⟨0, "", ""⟩)
  | _ => (s, ⟨2, "", "unknown command"⟩)

/-- A backend command that mutates firewall state: `ipset create` or
`iptables -I`. -/
def isMutatingCmd : List String → Bool
  | _ :: "create" :: _ => true
  | _ :: "-I" :: _ => true
  | _ => false

/-! ### `detector.py` -/

/-- `SlidingWindowCounter._evict_old`: pop from the front while the head is
strictly below `now_ts - window`. -/
def evictOld (window : Int) (q : List Int) (now_ts : Int) : List Int :=
  q.dropWhile (fun t => decide (t < now_ts - window))

/-- State of `SlidingWindowCounter`: the window length and the two per-address
maps (absent keys read as empty, as with `defaultdict` / `dict.get`). -/
structure SlidingWindowCounter where
  window_seconds : Int
  ip_to_timestamps : String → List Int
  ip_to_usernames : String → List String

/-- A freshly constructed `SlidingWindowCounter`. -/
def SlidingWindowCounter.fresh (w : Int) : SlidingWindowCounter :=
  ⟨w, fun _ => [], fun _ => []⟩

/-- Add a username to a per-address set (Python `set.add`). -/
def addUser (users : List String) (u : String) : List String :=
  if u ∈ users then users else users ++ [u]

/-- `SlidingWindowCounter.add`: append the timestamp, evict old entries
against it, optionally record the username (Python skips a falsy username),
and return the post-eviction count. The Python wall-clock fallbacks for a
falsy `ts` are outside the model: the timestamp is always the given one. -/
def SlidingWindowCounter.add (c : SlidingWindowCounter) (ip : String)
    (username : Option String) (ts : Int) : SlidingWindowCounter × Nat :=
  let q := evictOld c.window_seconds (c.ip_to_timestamps ip ++ [ts]) ts
  let c1 : SlidingWindowCounter :=
    { c with ip_to_timestamps := fun k => if k = ip then q else c.ip_to_timestamps k }
  let c2 : SlidingWindowCounter :=
    match username with
    | some u =>
      if u ≠ "" then
        { c1 with ip_to_usernames :=
            fun k => if k = ip then addUser (c1.ip_to_usernames ip) u else c1.ip_to_usernames k }
      else c1
    | none => c1
  (c2, q.length)

/-- `SlidingWindowCounter.count`: an absent or empty queue reads 0 without
mutation; otherwise evict against `now_ts` (mutating the stored queue, as the
shared deque does) and return the remaining length. -/
def SlidingWindowCounter.count (c : SlidingWindowCounter) (ip : String) (now_ts : Int) :
    SlidingWindowCounter × Nat :=
  let q := c.ip_to_timestamps ip
  if q = [] then (c, 0)
  else
    let q2 := evictOld c.window_seconds q now_ts
    ({ c with ip_to_timestamps := fun k => if k = ip then q2 else c.ip_to_timestamps k },
      q2.length)

/-- `SlidingWindowCounter.get_usernames`. -/
def SlidingWindowCounter.get_usernames (c : SlidingWindowCounter) (ip : String) : List String :=
  c.ip_to_usernames ip

/-- Fold a sequence of `add` calls for one address over the counter
(username omitted), keeping only the state. -/
def addTimes (c : SlidingWindowCounter) (ip : String) : List Int → SlidingWindowCounter
  | [] => c
  | t :: ts => addTimes (c.add ip none t).1 ip ts

/-! Model of the two compiled patterns of `detector.py` under `re.search`
semantics.  `FAILED_PATTERN` is
`Failed password for (?:(invalid user )?(?P<user>\S+)) from (?P<ip>[0-9a-fA-F:\.]+) `
and `INVALID_PATTERN` is `Invalid user (?P<user>\S+) from (?P<ip>[0-9a-fA-F:\.]+)`.
Because `\S+` and the ip character class both exclude the space that must
follow them, the regex backtracking collapses to taking maximal runs; the
only live alternative is dropping the optional `invalid user ` literal, which
is tried greedily first, and `re.search` tries every start position left to
right. -/

/-- Match a literal prefix, returning the remainder. -/
def stripLit : List Char → List Char → Option (List Char)
  | [], s => some s
  | _ :: _, [] => none
  | p :: ps, c :: cs => if p = c then stripLit ps cs else none

/-- Maximal run of characters satisfying `p`, plus the remainder. -/
def takeRun (p : Char → Bool) : List Char → List Char × List Char
  | [] => ([], [])
  | c :: cs =>
    if p c then
      let r := takeRun p cs
      (c :: r.1, r.2)
    else ([], c :: cs)

/-- A non-whitespace character (regex `\S`). -/
def notSpace (c : Char) : Bool :=
  !c.isWhitespace

/-- A character of the regex class `[0-9a-fA-F:\.]`. -/
def isIpChar (c : Char) : Bool :=
  c.isDigit || (decide ('a' ≤ c) && decide (c ≤ 'f')) || (decide ('A' ≤ c) && decide (c ≤ 'F'))
    || c = ':' || c = '.'

/-- The `(?P<user>\S+) from (?P<ip>[0-9a-fA-F:\.]+) ` tail of
`FAILED_PATTERN` (note the required trailing space). -/
def failedBody (s : List Char) : Option (String × String) :=
  let ur := takeRun notSpace s
  if ur.1 = [] then none
  else
    match stripLit " from ".data ur.2 with
    | none => none
    | some r2 =>
      let ipr := takeRun isIpChar r2
      if ipr.1 = [] then none
      else
        match ipr.2 with
        | ' ' :: _ => some (⟨ur.1⟩, ⟨ipr.1⟩)
        | _ => none

/-- `FAILED_PATTERN` anchored at the current position: the `invalid user `
option is tried first, then dropped on failure. -/
def matchFailedAt (s : List Char) : Option (String × String) :=
  match stripLit "Failed password for ".data s with
  | none => none
  | some s1 =>
    match stripLit "invalid user ".data s1 with
    | some s2 => (failedBody s2).orElse (fun _ => failedBody s1)
    | none => failedBody s1

/-- The `(?P<user>\S+) from (?P<ip>[0-9a-fA-F:\.]+)` tail of
`INVALID_PATTERN` (no trailing space required). -/
def invalidBody (s : List Char) : Option (String × String) :=
  let ur := takeRun notSpace s
  if ur.1 = [] then none
  else
    match stripLit " from ".data ur.2 with
    | none => none
    | some r2 =>
      let ipr := takeRun isIpChar r2
      if ipr.1 = [] then none else some (⟨ur.1⟩, ⟨ipr.1⟩)

/-- `INVALID_PATTERN` anchored at the current position. -/
def matchInvalidAt (s : List Char) : Option (String × String) :=
  match stripLit "Invalid user ".data s with
  | none => none
  | some s1 => invalidBody s1

/-- `re.search`: try the anchored matcher at each start position, left to
right. -/
def reSearch (f : List Char → Option (String × String)) : List Char → Option (String × String)
  | [] => f []
  | c :: cs => (f (c :: cs)).orElse (fun _ => reSearch f cs)

/-- Line parsing as in `parse_and_detect`:
`FAILED_PATTERN.search(line) or INVALID_PATTERN.search(line)`, yielding
`(user, ip)` on a match. -/
def parseLine (line : String) : Option (String × String) :=
  (reSearch matchFailedAt line.data).orElse (fun _ => reSearch matchInvalidAt line.data)

/-- An `insert_event` call: timestamp, address, username, kind, raw line. -/
structure AuthEvent where
  ts : Int
  ip : String
  user : Option String
  kind : String
  raw : String
deriving DecidableEq

/-- A fired block decision: the `block_ip` call made by the detection loop,
together with the count and attempted usernames it reported. -/
structure BlockDecision where
  ip : String
  attempts : Nat
  usernames : List String
  duration : Int
  reason : String
deriving DecidableEq

/-- Lines 112–113 of `detector.py`: clear both the timestamp deque and the
username set for the address. -/
def resetIp (c : SlidingWindowCounter) (ip : String) : SlidingWindowCounter :=
  { c with
    ip_to_timestamps := fun k => if k = ip then [] else c.ip_to_timestamps k,
    ip_to_usernames := fun k => if k = ip then [] else c.ip_to_usernames k }

/-- The reason string built at line 106 of `detector.py`. -/
def mkReason (n : Nat) : String :=
  "Brute force detected (" ++ toString n ++ " attempts)"

/-- The body of the per-line loop of `parse_and_detect` (lines 88–113 of
`detector.py`): parse, whitelist-filter, persist the event, update the
window, and on reaching the threshold fire one block decision and clear the
address's window state. -/
def processLine (cfg : DetectorConfig) (st : SlidingWindowCounter) (now : Int) (line : String) :
    SlidingWindowCounter × Option AuthEvent × Option BlockDecision :=
  match parseLine line with
  | none => (st, none, none)
  | some (user, ip) =>
    if is_ip_whitelisted ip cfg.whitelist then (st, none, none)
    else
      let ev : AuthEvent := ⟨now, ip, some user, "failed_login", line⟩
      let r := st.add ip (some user) now
      if cfg.failures_threshold ≤ (r.2 : Int) then
        (resetIp r.1 ip, some ev,
          some ⟨ip, r.2, r.1.get_usernames ip, cfg.block_seconds, mkReason r.2⟩)
      else (r.1, some ev, none)

/-- The detection loop over a finite observed sequence of `(timestamp, line)`
pairs, returning the final counter state, the `insert_event` records and the
fired block decisions in order. -/
def parse_and_detect_lines (cfg : DetectorConfig) (st : SlidingWindowCounter) :
    List (Int × String) → SlidingWindowCounter × List AuthEvent × List BlockDecision
  | [] => (st, [], [])
  | (now, line) :: rest =>
    let r := processLine cfg st now line
    let rr := parse_and_detect_lines cfg r.1 rest
    (rr.1, r.2.1.toList ++ rr.2.1, r.2.2.toList ++ rr.2.2)

/-- `parse_and_detect` over a finite input, starting (as the source does)
from a freshly constructed counter. -/
def parse_and_detect (cfg : DetectorConfig) (input : List (Int × String)) :
    SlidingWindowCounter × List AuthEvent × List BlockDecision :=
  parse_and_detect_lines cfg (SlidingWindowCounter.fresh cfg.window_seconds) input

/-! ### Helper lemmas -/

/-- Unfolding of one whitelist-entry test of `is_ip_whitelisted`. -/
theorem whitelistEntryHit (net : String) (a : IPAddr) :
    (match ip_network net with
      | none => false
      | some nw => netContains nw a) = true
      ↔ ∃ nw, ip_network net = some nw ∧ netContains nw a = true := by
  cases hn : ip_network net <;> simp [hn]

/-! ### Claims about `blocker.py` -/

/-- C3: on the backend list output
`Name: blk\nType: hash:ip\nMembers:\n203.0.113.7 timeout 120\n` with a zero
exit status, `list_blocked` does NOT return `["203.0.113.7"]`: the
`Members:` header is not among the skipped prefixes, its first token
contains a colon and so passes the IPv6 test, and it is returned alongside
the address. -/
theorem c3_members_header_leak :
    (list_blocked {} ⟨0, "Name: blk\nType: hash:ip\nMembers:\n203.0.113.7 timeout 120\n", ""⟩).1
      = ["203.0.113.7", "Members:"]
    ∧ (list_blocked {} ⟨0, "Name: blk\nType: hash:ip\nMembers:\n203.0.113.7 timeout 120\n", ""⟩).1
      ≠ ["203.0.113.7"] := by
  constructor <;> decide

/-- C4 (amended): `ensure_firewall`, `block_ip` and `unblock_ip` each perform
exactly one `insert_action` call per invocation, on every success/failure
path of the external tool; `list_blocked` performs none. -/
theorem c4_audit_counts {σ : Type} (run : σ → List String → σ × CompletedProcess)
    (cfg : DetectorConfig) (s : σ) (res1 res2 res3 : CompletedProcess)
    (ip : String) (d : Int) (r : String) (n1 n2 : Int) :
    (ensure_firewall run cfg s).2.1.length = 1
    ∧ (block_ip cfg ip d r res1 n1).audits.length = 1
    ∧ (unblock_ip cfg ip res2 n2).audits.length = 1
    ∧ (list_blocked cfg res3).2.length = 0 := by
  refine ⟨?_, rfl, rfl, ?_⟩
  · simp only [ensure_firewall, ensure_rules]
    repeat' split
    all_goals rfl
  · unfold list_blocked
    split <;> rfl

/-- C4 counterexample: `list_blocked` performs no `insert_action` call, so
the claim that every operation (including `list_blocked`) appends exactly
one audit record fails. -/
theorem c4_counterexample :
    (list_blocked {} ⟨0, "Members:\n203.0.113.7 timeout 120\n", ""⟩).2.length = 0
    ∧ (list_blocked {} ⟨0, "Members:\n203.0.113.7 timeout 120\n", ""⟩).2.length ≠ 1 := by
  constructor <;> decide

/-- C5 (amended): for every requested duration, the ipset timeout argument
passed to the external tool is `max 1 duration_seconds` — equal to the
requested duration exactly when it is at least 1 — while the audit record
always stores the requested duration unchanged. -/
theorem c5_block_duration (cfg : DetectorConfig) (ip : String) (d : Int) (r : String)
    (res : CompletedProcess) (now : Int) :
    (block_ip cfg ip d r res now).cmd
      = ["ipset", "add", cfg.ipset_name, ip, "timeout", toString (max 1 d)]
    ∧ (block_ip cfg ip d r res now).audits.map (fun a => a.duration) = [some d]
    ∧ (1 ≤ d → toString (max 1 d) = toString d) := by
  refine ⟨rfl, rfl, fun hd => ?_⟩
  rw [max_eq_right hd]

/-- C5 witness: at duration 120 the timeout argument is the requested
duration and the audit record stores 120; at duration 0 the audit record
still stores the requested 0 while the timeout argument is clamped. -/
theorem c5_block_duration_witness :
    (block_ip {} "203.0.113.7" 120 "test" ⟨0, "", ""⟩ 5).cmd
      = ["ipset", "add", "ssh_bruteforce_blacklist", "203.0.113.7", "timeout",
          toString (max 1 (120 : Int))]
    ∧ (block_ip {} "203.0.113.7" 120 "test" ⟨0, "", ""⟩ 5).audits.map (fun a => a.duration)
      = [some (120 : Int)]
    ∧ toString (max 1 (120 : Int)) = toString (120 : Int)
    ∧ (block_ip {} "203.0.113.7" 0 "test" ⟨0, "", ""⟩ 5).audits.map (fun a => a.duration)
      = [some (0 : Int)] := by
  have h := c5_block_duration {} "203.0.113.7" 120 "test" ⟨0, "", ""⟩ 5
  have h0 := c5_block_duration {} "203.0.113.7" 0 "test" ⟨0, "", ""⟩ 5
  exact ⟨h.1, h.2.1, h.2.2 (by decide), h0.2.1⟩

/-- C5 counterexample: at requested duration 0 the timeout argument passed to
the external tool is `1` (the source clamps with `max(1, duration_seconds)`),
not the requested duration. -/
theorem c5_counterexample :
    (block_ip {} "203.0.113.7" 0 "test" ⟨0, "", ""⟩ 5).cmd
      ≠ ["ipset", "add", "ssh_bruteforce_blacklist", "203.0.113.7", "timeout", toString (0 : Int)]
    ∧ (block_ip {} "203.0.113.7" 0 "test" ⟨0, "", ""⟩ 5).cmd
      = ["ipset", "add", "ssh_bruteforce_blacklist", "203.0.113.7", "timeout", "1"] := by
  constructor <;> decide

/-- C6 (amended): for `block_ip` and `unblock_ip` the recorded status is
`ok` exactly when the exit status is zero, and the recorded message prefers
the stripped stdout whenever it is nonempty — regardless of success or
failure — falling back to the stripped stderr, and is `none` when both
stripped outputs are empty. -/
theorem c6_status_and_message (cfg : DetectorConfig) (ip : String) (d : Int) (r : String)
    (res res2 : CompletedProcess) (now now2 : Int) :
    ((block_ip cfg ip d r res now).audits.map (fun a => a.status) = ["ok"]
      ↔ res.returncode = 0)
    ∧ (pyStrip res.stdout ≠ "" →
        (block_ip cfg ip d r res now).audits.map (fun a => a.msg)
          = [some (pyStrip res.stdout)])
    ∧ (pyStrip res.stdout = "" → pyStrip res.stderr ≠ "" →
        (block_ip cfg ip d r res now).audits.map (fun a => a.msg)
          = [some (pyStrip res.stderr)])
    ∧ (pyStrip res.stdout = "" → pyStrip res.stderr = "" →
        (block_ip cfg ip d r res now).audits.map (fun a => a.msg) = [none])
    ∧ ((unblock_ip cfg ip res2 now2).audits.map (fun a => a.status) = ["ok"]
      ↔ res2.returncode = 0)
    ∧ (pyStrip res2.stdout ≠ "" →
        (unblock_ip cfg ip res2 now2).audits.map (fun a => a.msg)
          = [some (pyStrip res2.stdout)])
    ∧ (pyStrip res2.stdout = "" → pyStrip res2.stderr ≠ "" →
        (unblock_ip cfg ip res2 now2).audits.map (fun a => a.msg)
          = [some (pyStrip res2.stderr)])
    ∧ (pyStrip res2.stdout = "" → pyStrip res2.stderr = "" →
        (unblock_ip cfg ip res2 now2).audits.map (fun a => a.msg) = [none]) := by
  refine ⟨?_, ?_, ?_, ?_, ?_, ?_, ?_, ?_⟩
  · by_cases h : res.returncode = 0 <;> simp [block_ip, h]
  · intro h1
    simp [block_ip, pyOr, h1]
  · intro h1 h2
    simp [block_ip, pyOr, h1, h2]
  · intro h1 h2
    simp [block_ip, pyOr, h1, h2]
  · by_cases h : res2.returncode = 0 <;> simp [unblock_ip, h]
  · intro h1
    simp [unblock_ip, pyOr, h1]
  · intro h1 h2
    simp [unblock_ip, pyOr, h1, h2]
  · intro h1 h2
    simp [unblock_ip, pyOr, h1, h2]

/-- C6 witness: a successful block with padded stdout records status `ok`
and the stripped stdout; a failed unblock with empty stdout records the
stripped stderr; a failed block with both outputs empty records no
message. -/
theorem c6_status_and_message_witness :
    (block_ip {} "203.0.113.7" 60 "t" ⟨0, " done ", "junk"⟩ 9).audits.map (fun a => a.status)
      = ["ok"]
    ∧ (block_ip {} "203.0.113.7" 60 "t" ⟨0, " done ", "junk"⟩ 9).audits.map (fun a => a.msg)
      = [some "done"]
    ∧ (unblock_ip {} "203.0.113.7" ⟨2, "", " gone "⟩ 9).audits.map (fun a => a.msg)
      = [some "gone"]
    ∧ (block_ip {} "203.0.113.7" 60 "t" ⟨1, "", ""⟩ 9).audits.map (fun a => a.msg)
      = [none] := by
  have h := c6_status_and_message {} "203.0.113.7" 60 "t" ⟨0, " done ", "junk"⟩
    ⟨2, "", " gone "⟩ 9 9
  have hempty := c6_status_and_message {} "203.0.113.7" 60 "t" ⟨1, "", ""⟩
    ⟨2, "", " gone "⟩ 9 9
  refine ⟨h.1.mpr (by decide), ?_, ?_, hempty.2.2.2.1 (by decide) (by decide)⟩
  · have e : pyStrip " done " = "done" := by decide
    have hx := h.2.1 (by decide)
    rwa [e] at hx
  · have e : pyStrip " gone " = "gone" := by decide
    have hx := h.2.2.2.2.2.2.1 (by decide) (by decide)
    rwa [e] at hx

/-- C6 counterexample: on a failed call (exit status 1) with nonempty stdout,
the recorded message is the stdout, not the stderr the claim requires. -/
theorem c6_counterexample :
    (block_ip {} "203.0.113.7" 60 "test" ⟨1, "added", "permission denied"⟩ 9).audits.map
      (fun a => (a.status, a.msg))
      = [("error", some "added")]
    ∧ some "added" ≠ some "permission denied" := by
  constructor <;> decide

/-- C7: over the modeled firewall backend, running `ensure_firewall` twice
from an empty backend leaves exactly one address set and exactly one rule;
the second call is observationally a no-op (same state) and issues no
mutating backend command, only the two existence checks. -/
theorem c7_ensure_idempotent (cfg : DetectorConfig) :
    ((ensure_firewall execCmd cfg
        (ensure_firewall execCmd cfg ⟨[], []⟩).1).1).sets = [cfg.ipset_name]
    ∧ ((ensure_firewall execCmd cfg
        (ensure_firewall execCmd cfg ⟨[], []⟩).1).1).rules
      = [[cfg.iptables_chain, "-m", "set", "--match-set", cfg.ipset_name, "src", "-j", "DROP"]]
    ∧ (ensure_firewall execCmd cfg
        (ensure_firewall execCmd cfg ⟨[], []⟩).1).1
      = (ensure_firewall execCmd cfg ⟨[], []⟩).1
    ∧ ((ensure_firewall execCmd cfg
        (ensure_firewall execCmd cfg ⟨[], []⟩).1).2.2).filter isMutatingCmd = [] := by
  simp [ensure_firewall, ensure_rules, execCmd, isMutatingCmd]

/-! ### Claims about `config.py` -/

/-- C9: `is_ip_whitelisted` is total (the Lean model needs no exception
path), and it returns `true` exactly when the address parses and lies in
some parseable configured network; consequently an unparsable address yields
`false` and unparsable whitelist entries cannot contribute. -/
theorem c9_whitelist_semantics (ip : String) (wl : List String) :
    is_ip_whitelisted ip wl = true
      ↔ ∃ a, ip_address ip = some a
          ∧ ∃ net ∈ wl, ∃ nw, ip_network net = some nw ∧ netContains nw a = true := by
  unfold is_ip_whitelisted
  cases h : ip_address ip with
  | none => simp [h]
  | some a => simp [h, List.any_eq_true, whitelistEntryHit]

/-! ### Claims about `blocker.py` error handling -/

/-- C10: whenever the external tool exits nonzero, `list_blocked` returns the
empty list (and makes no audit record); no exception reaches the caller
(the model is a total function). -/
theorem c10_list_failure_empty (cfg : DetectorConfig) (res : CompletedProcess)
    (h : res.returncode ≠ 0) : list_blocked cfg res = ([], []) := by
  simp [list_blocked, h]

/-- C10 witness: a failing invocation with nonempty stdout still yields the
empty list. -/
theorem c10_list_failure_empty_witness :
    list_blocked {} ⟨1, "Name: blk\nMembers:\n1.2.3.4\n", "some error"⟩ = ([], []) :=
  c10_list_failure_empty {} ⟨1, "Name: blk\nMembers:\n1.2.3.4\n", "some error"⟩ (by decide)

/-! ### Sliding-window lemmas (claim C2) -/

/-- On a non-decreasing list, evicting from the front all entries below a
limit is the same as filtering the whole list by the limit. -/
theorem dropWhile_lt_eq_filter {l : List Int} {lim : Int} (h : l.Pairwise (· ≤ ·)) :
    l.dropWhile (fun t => decide (t < lim)) = l.filter (fun t => decide (lim ≤ t)) := by
  induction l with
  | nil => rfl
  | cons a l ih =>
    rcases List.pairwise_cons.mp h with ⟨ha, hl⟩
    by_cases hc : a < lim
    · simp [List.dropWhile_cons, List.filter_cons, hc, not_le.mpr hc, ih hl]
    · have hle : lim ≤ a := not_lt.mp hc
      have hfl : l.filter (fun t => decide (lim ≤ t)) = l :=
        List.filter_eq_self.mpr (fun b hb => by simpa using le_trans hle (ha b hb))
      simp [List.dropWhile_cons, List.filter_cons, hc, hle, hfl]

/-- The per-address queue and window length after one `add` call with no
username. -/
theorem add_tq (c : SlidingWindowCounter) (ip : String) (t : Int) :
    ((c.add ip none t).1).ip_to_timestamps ip
      = evictOld c.window_seconds (c.ip_to_timestamps ip ++ [t]) t
    ∧ ((c.add ip none t).1).window_seconds = c.window_seconds := by
  simp [SlidingWindowCounter.add]

/-- Main sliding-window characterization: after any non-decreasing sequence
of `add` calls for one address, a `count` at a time `now` no earlier than
every added timestamp returns exactly the number of retained-by-`now`
timestamps, and retains exactly the timestamps `≥ now - window`. -/
theorem addTimes_count (w : Int) (hw : 0 ≤ w) (ip : String) :
    ∀ (ts : List Int) (c : SlidingWindowCounter),
      c.window_seconds = w →
      (c.ip_to_timestamps ip ++ ts).Pairwise (· ≤ ·) →
      ∀ now, (∀ t ∈ c.ip_to_timestamps ip ++ ts, t ≤ now) →
        ((addTimes c ip ts).count ip now).2
          = ((c.ip_to_timestamps ip ++ ts).filter (fun t => decide (now - w ≤ t))).length
        ∧ ((addTimes c ip ts).count ip now).1.ip_to_timestamps ip
          = (c.ip_to_timestamps ip ++ ts).filter (fun t => decide (now - w ≤ t)) := by
  intro ts
  induction ts with
  | nil =>
    intro c hcw hsort now hnow
    rw [List.append_nil] at hsort
    simp only [addTimes, List.append_nil]
    by_cases hq : c.ip_to_timestamps ip = []
    · constructor
      · simp [SlidingWindowCounter.count, hq]
      · simp [SlidingWindowCounter.count, hq]
    · have he : evictOld c.window_seconds (c.ip_to_timestamps ip) now
          = (c.ip_to_timestamps ip).filter (fun t => decide (now - w ≤ t)) := by
        rw [evictOld, hcw, dropWhile_lt_eq_filter hsort]
      constructor
      · simp [SlidingWindowCounter.count, hq, he]
      · simp [SlidingWindowCounter.count, hq, he]
  | cons t ts ih =>
    intro c hcw hsort now hnow
    have hsub1 : List.Sublist (c.ip_to_timestamps ip ++ [t]) (c.ip_to_timestamps ip ++ t :: ts) :=
      List.Sublist.append_left ((List.nil_sublist ts).cons₂ t) _
    have hsort1 : (c.ip_to_timestamps ip ++ [t]).Pairwise (· ≤ ·) := hsort.sublist hsub1
    have htq : ((c.add ip none t).1).ip_to_timestamps ip
        = (c.ip_to_timestamps ip ++ [t]).filter (fun x => decide (t - w ≤ x)) := by
      rw [(add_tq c ip t).1, evictOld, hcw, dropWhile_lt_eq_filter hsort1]
    have hwin : ((c.add ip none t).1).window_seconds = w := by rw [(add_tq c ip t).2, hcw]
    have htmem : t ∈ c.ip_to_timestamps ip ++ t :: ts := by simp
    have htnow : t ≤ now := hnow t htmem
    -- prerequisites of the induction hypothesis for the post-`add` state
    have hsub2 : List.Sublist (((c.add ip none t).1).ip_to_timestamps ip ++ ts)
        (c.ip_to_timestamps ip ++ t :: ts) := by
      rw [htq]
      have hs : List.Sublist
          ((c.ip_to_timestamps ip ++ [t]).filter (fun x => decide (t - w ≤ x)) ++ ts)
          ((c.ip_to_timestamps ip ++ [t]) ++ ts) :=
        List.Sublist.append (List.filter_sublist _) (List.Sublist.refl ts)
      simpa using hs
    have hsort2 : (((c.add ip none t).1).ip_to_timestamps ip ++ ts).Pairwise (· ≤ ·) :=
      hsort.sublist hsub2
    have hnow2 : ∀ x ∈ ((c.add ip none t).1).ip_to_timestamps ip ++ ts, x ≤ now :=
      fun x hx => hnow x (hsub2.subset hx)
    have h := ih ((c.add ip none t).1) hwin hsort2 now hnow2
    -- rewrite the filtered list back to the original input
    have hcollapse : (((c.add ip none t).1).ip_to_timestamps ip ++ ts).filter
          (fun x => decide (now - w ≤ x))
        = (c.ip_to_timestamps ip ++ t :: ts).filter (fun x => decide (now - w ≤ x)) := by
      rw [htq, List.filter_append, List.filter_filter]
      have hpt : ∀ x ∈ c.ip_to_timestamps ip ++ [t],
          (decide (now - w ≤ x) && decide (t - w ≤ x)) = decide (now - w ≤ x) := by
        intro x _
        by_cases hx : now - w ≤ x
        · have hx2 : t - w ≤ x := le_trans (by omega) hx
          simp [hx, hx2]
        · simp [hx]
      rw [List.filter_congr hpt]
      have hassoc : (c.ip_to_timestamps ip ++ t :: ts)
          = (c.ip_to_timestamps ip ++ [t]) ++ ts := by simp
      rw [hassoc]
      simp only [List.filter_append, List.filter_cons]
    have hstep : addTimes c ip (t :: ts) = addTimes ((c.add ip none t).1) ip ts := rfl
    rw [hstep, ← hcollapse]
    exact h

/-- C2 (amended): for every non-decreasing sequence of `add` timestamps for
one address and every query time `now` at least as late as every added
timestamp, `count(address, now)` equals the number of adds with timestamp in
the CLOSED interval `[now - window_seconds, now]`, and the retained
timestamps are exactly those with `timestamp ≥ now - window_seconds`
(boundary timestamps equal to `now - window_seconds` are retained). -/
theorem c2_sliding_window (w : Int) (ip : String) (ts : List Int) (now : Int)
    (hw : 0 ≤ w) (hsorted : ts.Pairwise (· ≤ ·)) (hnow : ∀ t ∈ ts, t ≤ now) :
    ((addTimes (SlidingWindowCounter.fresh w) ip ts).count ip now).2
      = (ts.filter (fun t => decide (now - w ≤ t ∧ t ≤ now))).length
    ∧ ((addTimes (SlidingWindowCounter.fresh w) ip ts).count ip now).1.ip_to_timestamps ip
      = ts.filter (fun t => decide (now - w ≤ t)) := by
  have h := addTimes_count w hw ip ts (SlidingWindowCounter.fresh w) rfl hsorted now hnow
  have e : ts.filter (fun t => decide (now - w ≤ t ∧ t ≤ now))
      = ts.filter (fun t => decide (now - w ≤ t)) :=
    List.filter_congr (fun x hx => by
      by_cases hp : now - w ≤ x <;> simp [hp, hnow x hx])
  refine ⟨?_, ?_⟩
  · rw [e]
    exact h.1
  · exact h.2

/-- C2 witness: three adds at 70, 100, 200 with window 180 queried at 250:
all three lie in `[70, 250]` and are counted and retained (70 sits exactly
on the boundary `now - window`). -/
theorem c2_sliding_window_witness :
    ((addTimes (SlidingWindowCounter.fresh 180) "203.0.113.7" [70, 100, 200]).count
        "203.0.113.7" 250).2
      = (([70, 100, 200] : List Int).filter (fun t => decide (250 - 180 ≤ t ∧ t ≤ 250))).length
    ∧ ((addTimes (SlidingWindowCounter.fresh 180) "203.0.113.7" [70, 100, 200]).count
        "203.0.113.7" 250).1.ip_to_timestamps "203.0.113.7"
      = ([70, 100, 200] : List Int).filter (fun t => decide (250 - 180 ≤ t)) :=
  c2_sliding_window 180 "203.0.113.7" [70, 100, 200] 250 (by decide)
    (by decide) (by decide)

/-- C2 counterexample: one add at timestamp 100 with window 180, counted at
`now = 280`: the code retains the boundary entry (`100 = now - window`, the
eviction test is strict) and returns 1, while the claimed half-open interval
`(now - window, now]` contains no add. -/
theorem c2_counterexample :
    ((addTimes (SlidingWindowCounter.fresh 180) "203.0.113.7" [100]).count "203.0.113.7" 280).2 = 1
    ∧ (([100] : List Int).filter (fun t => decide (280 - 180 < t ∧ t ≤ 280))).length = 0 := by
  constructor <;> decide

/-! ### Detection-loop lemmas (claims C1 and C8) -/

/-- Front eviction is a no-op when every entry is at or above the limit. -/
theorem dropWhile_eq_self_of_all {l : List Int} {lim : Int} (h : ∀ t ∈ l, lim ≤ t) :
    l.dropWhile (fun t => decide (t < lim)) = l := by
  cases l with
  | nil => rfl
  | cons x xs =>
    simp [List.dropWhile_cons, not_lt.mpr (h x (List.mem_cons_self x xs))]

/-- Evaluation of `add` for any username: the queue becomes the evicted
append, the returned count is its length, and the window is unchanged. -/
theorem add_eval (c : SlidingWindowCounter) (a : String) (u : Option String) (ts : Int) :
    ((c.add a u ts).1).ip_to_timestamps a
      = evictOld c.window_seconds (c.ip_to_timestamps a ++ [ts]) ts
    ∧ (c.add a u ts).2 = (evictOld c.window_seconds (c.ip_to_timestamps a ++ [ts]) ts).length
    ∧ ((c.add a u ts).1).window_seconds = c.window_seconds := by
  cases u with
  | none => simp [SlidingWindowCounter.add]
  | some s =>
    by_cases hs : s = "" <;> simp [SlidingWindowCounter.add, hs]

/-- Evaluation of `resetIp` at the reset address. -/
theorem resetIp_eval (c : SlidingWindowCounter) (a : String) :
    (resetIp c a).ip_to_timestamps a = []
    ∧ (resetIp c a).ip_to_usernames a = []
    ∧ (resetIp c a).window_seconds = c.window_seconds := by
  simp [resetIp]

/-- `processLine` when the line parses to a non-whitelisted address and the
post-add count reaches the threshold: one decision fires and the address's
window state is reset. -/
theorem processLine_fire (cfg : DetectorConfig) (st : SlidingWindowCounter) (now : Int)
    (line : String) (u a : String)
    (hu : parseLine line = some (u, a))
    (hwl : is_ip_whitelisted a cfg.whitelist = false)
    (hth : cfg.failures_threshold ≤ ((st.add a (some u) now).2 : Int)) :
    processLine cfg st now line
      = (resetIp (st.add a (some u) now).1 a,
          some ⟨now, a, some u, "failed_login", line⟩,
          some ⟨a, (st.add a (some u) now).2,
            ((st.add a (some u) now).1).get_usernames a, cfg.block_seconds,
            mkReason (st.add a (some u) now).2⟩) := by
  simp [processLine, hu, hwl, hth]

/-- `processLine` when the line parses to a non-whitelisted address and the
post-add count stays below the threshold: no decision. -/
theorem processLine_nofire (cfg : DetectorConfig) (st : SlidingWindowCounter) (now : Int)
    (line : String) (u a : String)
    (hu : parseLine line = some (u, a))
    (hwl : is_ip_whitelisted a cfg.whitelist = false)
    (hth : ¬ cfg.failures_threshold ≤ ((st.add a (some u) now).2 : Int)) :
    processLine cfg st now line
      = ((st.add a (some u) now).1, some ⟨now, a, some u, "failed_login", line⟩, none) := by
  simp [processLine, hu, hwl, hth]

/-- Core invariant of the detection loop on a single-address burst confined
to one window: with `ℓ` timestamps already stored (`ℓ < T`, all at least
`lo`), processing `n` further matching events whose timestamps lie in
`[lo, lo + window]` fires exactly `(ℓ + n) / T` decisions, leaves
`(ℓ + n) % T` stored timestamps (all at least `lo`), and whenever the last
processed event fired a decision (`(ℓ + n) % T = 0` with `n > 0`), both the
timestamp queue and the username set for the address are empty. -/
theorem detect_burst_invariant (cfg : DetectorConfig) (a : String) (lo : Int) (T : Nat)
    (hT : cfg.failures_threshold = (T : Int)) (hT0 : 0 < T)
    (hw : 0 ≤ cfg.window_seconds)
    (hwl : is_ip_whitelisted a cfg.whitelist = false) :
    ∀ (input : List (Int × String)) (st : SlidingWindowCounter),
      st.window_seconds = cfg.window_seconds →
      (∀ p ∈ input, (∃ u, parseLine p.2 = some (u, a))
        ∧ lo ≤ p.1 ∧ p.1 ≤ lo + cfg.window_seconds) →
      (∀ t ∈ st.ip_to_timestamps a, lo ≤ t) →
      (st.ip_to_timestamps a).length < T →
      ((parse_and_detect_lines cfg st input).2.2.length
          = ((st.ip_to_timestamps a).length + input.length) / T)
      ∧ (((parse_and_detect_lines cfg st input).1.ip_to_timestamps a).length
          = ((st.ip_to_timestamps a).length + input.length) % T)
      ∧ (∀ t ∈ (parse_and_detect_lines cfg st input).1.ip_to_timestamps a, lo ≤ t)
      ∧ (0 < input.length → ((st.ip_to_timestamps a).length + input.length) % T = 0 →
          (parse_and_detect_lines cfg st input).1.ip_to_timestamps a = []
          ∧ (parse_and_detect_lines cfg st input).1.ip_to_usernames a = []) := by
  intro input
  induction input with
  | nil =>
    intro st hstw hin hq hlen
    refine ⟨?_, ?_, hq, ?_⟩
    · simpa [parse_and_detect_lines] using (Nat.div_eq_of_lt (by simpa using hlen)).symm
    · simpa [parse_and_detect_lines] using (Nat.mod_eq_of_lt (by simpa using hlen)).symm
    · intro h0
      exact absurd h0 (by simp)
  | cons p rest ih =>
    intro st hstw hin hq hlen
    obtain ⟨now, line⟩ := p
    obtain ⟨⟨u, hu⟩, hlo, hhi⟩ := hin (now, line) (List.mem_cons_self _ _)
    have hrest : ∀ q ∈ rest, (∃ u, parseLine q.2 = some (u, a))
        ∧ lo ≤ q.1 ∧ q.1 ≤ lo + cfg.window_seconds :=
      fun q hq2 => hin q (List.mem_cons_of_mem _ hq2)
    -- the add never evicts inside the window
    have hnoev : ∀ t ∈ st.ip_to_timestamps a ++ [now], now - st.window_seconds ≤ t := by
      intro t ht
      rcases List.mem_append.mp ht with h1 | h1
      · have := hq t h1
        rw [hstw]
        omega
      · have : t = now := by simpa using h1
        rw [hstw]
        omega
    have htq : ((st.add a (some u) now).1).ip_to_timestamps a
        = st.ip_to_timestamps a ++ [now] := by
      rw [(add_eval st a (some u) now).1, evictOld, dropWhile_eq_self_of_all hnoev]
    have hcnt : (st.add a (some u) now).2 = (st.ip_to_timestamps a).length + 1 := by
      rw [(add_eval st a (some u) now).2.1, evictOld, dropWhile_eq_self_of_all hnoev]
      simp
    have hwin1 : ((st.add a (some u) now).1).window_seconds = cfg.window_seconds := by
      rw [(add_eval st a (some u) now).2.2, hstw]
    simp only [List.length_cons]
    by_cases hdec : T ≤ (st.ip_to_timestamps a).length + 1
    · -- the threshold is reached at this event: fire and reset
      have hTeq : (st.ip_to_timestamps a).length + 1 = T :=
        le_antisymm hlen hdec
      have hth : cfg.failures_threshold ≤ ((st.add a (some u) now).2 : Int) := by
        rw [hT, hcnt]
        exact_mod_cast hdec
      have hstep := processLine_fire cfg st now line u a hu hwl hth
      have hreset := resetIp_eval (st.add a (some u) now).1 a
      have h2 := ih (resetIp (st.add a (some u) now).1 a)
        (by rw [hreset.2.2, hwin1]) hrest (by rw [hreset.1]; intro t ht; cases ht)
        (by rw [hreset.1]; simpa using hT0)
      rw [hreset.1] at h2
      simp only [List.length_nil, Nat.zero_add] at h2
      constructor
      · simp only [parse_and_detect_lines, hstep, Option.toList_some, List.length_append,
          List.length_cons, List.length_nil]
        rw [h2.1]
        have : (st.ip_to_timestamps a).length + (rest.length + 1)
            = rest.length + T := by omega
        rw [this, Nat.add_div_right _ hT0]
        omega
      refine ⟨?_, ?_, ?_⟩
      · simp only [parse_and_detect_lines, hstep]
        rw [h2.2.1]
        have : (st.ip_to_timestamps a).length + (rest.length + 1)
            = rest.length + T := by omega
        rw [this, Nat.add_mod_right]
      · simp only [parse_and_detect_lines, hstep]
        exact h2.2.2.1
      · intro _ hmod
        have hmod2 : rest.length % T = 0 := by
          have : (st.ip_to_timestamps a).length + (rest.length + 1)
              = rest.length + T := by omega
          rwa [this, Nat.add_mod_right] at hmod
        rcases Nat.eq_zero_or_pos rest.length with hr0 | hrpos
        · have hnil : rest = [] := List.length_eq_zero.mp hr0
          subst hnil
          simp only [parse_and_detect_lines, hstep]
          exact ⟨hreset.1, hreset.2.1⟩
        · simp only [parse_and_detect_lines, hstep]
          exact h2.2.2.2 hrpos hmod2
    · -- below the threshold: no decision, the queue grows by one
      have hth : ¬ cfg.failures_threshold ≤ ((st.add a (some u) now).2 : Int) := by
        rw [hT, hcnt]
        intro hcon
        exact hdec (by exact_mod_cast hcon)
      have hstep := processLine_nofire cfg st now line u a hu hwl hth
      have hlen1 : (((st.add a (some u) now).1).ip_to_timestamps a).length < T := by
        rw [htq]
        simp only [List.length_append, List.length_cons, List.length_nil]
        omega
      have hq1 : ∀ t ∈ ((st.add a (some u) now).1).ip_to_timestamps a, lo ≤ t := by
        rw [htq]
        intro t ht
        rcases List.mem_append.mp ht with h1 | h1
        · exact hq t h1
        · have : t = now := by simpa using h1
          omega
      have h2 := ih ((st.add a (some u) now).1) hwin1 hrest hq1 hlen1
      rw [htq] at h2
      simp only [List.length_append, List.length_cons, List.length_nil] at h2
      have harith : (st.ip_to_timestamps a).length + 1 + rest.length
          = (st.ip_to_timestamps a).length + (rest.length + 1) := by omega
      constructor
      · simp only [parse_and_detect_lines, hstep, Option.toList_none, List.nil_append]
        rw [h2.1, harith]
      refine ⟨?_, ?_, ?_⟩
      · simp only [parse_and_detect_lines, hstep]
        rw [h2.2.1, harith]
      · simp only [parse_and_detect_lines, hstep]
        exact h2.2.2.1
      · intro _ hmod
        rw [← harith] at hmod
        have hrpos : 0 < rest.length := by
          rcases Nat.eq_zero_or_pos rest.length with hr0 | hrpos
          · exfalso
            rw [hr0, Nat.add_zero] at hmod
            have hlt : (st.ip_to_timestamps a).length + 1 < T := by omega
            rw [Nat.mod_eq_of_lt hlt] at hmod
            omega
          · exact hrpos
        simp only [parse_and_detect_lines, hstep]
        exact h2.2.2.2 hrpos hmod

/-- The repeated failed-login line used in concrete burst runs. -/
def burstLine : String :=
  "Failed password for root from 203.0.113.7 port 2222 ssh2"

/-- A configuration with an empty whitelist (so the burst address is not
exempt); all other fields keep the dataclass defaults. -/
def cfgOpen : DetectorConfig :=
  { whitelist := [] }

/-- A five-event burst for one address within one window. -/
def c1Burst : List (Int × String) :=
  [(100, burstLine), (101, burstLine), (102, burstLine), (103, burstLine), (104, burstLine)]

/-- C1 (amended): for a burst of `n` matching, non-whitelisted events for a
single address with all timestamps inside one window, where
`threshold ≤ n < 2 * threshold`, the detection loop fires exactly one block
decision, and immediately after the decision — that is, after the
`threshold`-th event of the burst — both the stored timestamp sequence and
the stored username set for that address are empty, so later lines of the
burst are counted from zero (each further full group of `threshold` events
would fire one more decision). -/
theorem c1_single_decision (cfg : DetectorConfig) (a : String) (lo : Int)
    (input : List (Int × String))
    (hT1 : 1 ≤ cfg.failures_threshold)
    (hw : 0 ≤ cfg.window_seconds)
    (hwl : is_ip_whitelisted a cfg.whitelist = false)
    (hin : ∀ p ∈ input, (∃ u, parseLine p.2 = some (u, a))
      ∧ lo ≤ p.1 ∧ p.1 ≤ lo + cfg.window_seconds)
    (hlen1 : cfg.failures_threshold ≤ (input.length : Int))
    (hlen2 : (input.length : Int) < 2 * cfg.failures_threshold) :
    (parse_and_detect cfg input).2.2.length = 1
    ∧ (parse_and_detect cfg
        (input.take cfg.failures_threshold.toNat)).1.ip_to_timestamps a = []
    ∧ (parse_and_detect cfg
        (input.take cfg.failures_threshold.toNat)).1.ip_to_usernames a = [] := by
  have hTnn : 0 ≤ cfg.failures_threshold := le_trans (by omega) hT1
  have hT : cfg.failures_threshold = (cfg.failures_threshold.toNat : Int) :=
    (Int.toNat_of_nonneg hTnn).symm
  have hT0 : 0 < cfg.failures_threshold.toNat := by omega
  have hfresh : ∀ t ∈ (SlidingWindowCounter.fresh cfg.window_seconds).ip_to_timestamps a,
      lo ≤ t := by
    intro t ht
    cases ht
  have hfreshlen : ((SlidingWindowCounter.fresh cfg.window_seconds).ip_to_timestamps a).length
      < cfg.failures_threshold.toNat := by
    simpa [SlidingWindowCounter.fresh] using hT0
  have hn1 : cfg.failures_threshold.toNat ≤ input.length := by omega
  have hn2 : input.length < 2 * cfg.failures_threshold.toNat := by omega
  have h1 := detect_burst_invariant cfg a lo cfg.failures_threshold.toNat hT hT0 hw hwl
    input (SlidingWindowCounter.fresh cfg.window_seconds) rfl hin hfresh hfreshlen
  have h2 := detect_burst_invariant cfg a lo cfg.failures_threshold.toNat hT hT0 hw hwl
    (input.take cfg.failures_threshold.toNat) (SlidingWindowCounter.fresh cfg.window_seconds)
    rfl (fun p hp => hin p (List.take_subset _ _ hp)) hfresh hfreshlen
  have htakelen : (input.take cfg.failures_threshold.toNat).length
      = cfg.failures_threshold.toNat := by
    rw [List.length_take]
    omega
  refine ⟨?_, ?_⟩
  · rw [show (parse_and_detect cfg input) = parse_and_detect_lines cfg
        (SlidingWindowCounter.fresh cfg.window_seconds) input from rfl, h1.1]
    simp only [SlidingWindowCounter.fresh, List.length_nil, Nat.zero_add]
    exact Nat.div_eq_of_lt_le (by omega) (by omega)
  · have := h2.2.2.2 (by omega) (by
      rw [htakelen]
      simp [SlidingWindowCounter.fresh, Nat.mod_self])
    exact this

/-- C1 witness: five identical failed-login lines for `203.0.113.7` within
ten seconds against threshold 5 fire exactly one decision, and after the
fifth line the stored timestamps and usernames for the address are empty. -/
theorem c1_single_decision_witness :
    (parse_and_detect cfgOpen c1Burst).2.2.length = 1
    ∧ (parse_and_detect cfgOpen (c1Burst.take 5)).1.ip_to_timestamps "203.0.113.7" = []
    ∧ (parse_and_detect cfgOpen (c1Burst.take 5)).1.ip_to_usernames "203.0.113.7" = [] := by
  have hall : ∀ p ∈ c1Burst, p.2 = burstLine ∧ 100 ≤ p.1 ∧ p.1 ≤ 100 + (180 : Int) := by decide
  exact c1_single_decision cfgOpen "203.0.113.7" 100 c1Burst (by decide) (by decide) (by decide)
    (fun p hp => ⟨⟨"root", by rw [(hall p hp).1]; decide⟩, (hall p hp).2.1, (hall p hp).2.2⟩)
    (by decide) (by decide)

/-- C1 counterexample: a burst of 10 matching events for one address within
one window (threshold 5) fires TWO block decisions, not exactly one — after
the reset at the fifth event the remaining five events count up to the
threshold again. -/
theorem c1_counterexample :
    (parse_and_detect cfgOpen
      ((List.range 10).map (fun i => ((100 + (i : Int), burstLine))))).2.2.length = 2
    ∧ (parse_and_detect cfgOpen
      ((List.range 10).map (fun i => ((100 + (i : Int), burstLine))))).2.2.length ≠ 1 := by
  constructor <;> decide

/-- C8: an address reported as whitelisted never appears among the fired
block decisions, whatever the input lines are. -/
theorem c8_whitelist_exemption (cfg : DetectorConfig) (input : List (Int × String)) (a : String)
    (ha : is_ip_whitelisted a cfg.whitelist = true) :
    (parse_and_detect cfg input).2.2.filter (fun d => decide (d.ip = a)) = [] := by
  suffices h : ∀ st, (parse_and_detect_lines cfg st input).2.2.filter
      (fun d => decide (d.ip = a)) = [] from h _
  induction input with
  | nil =>
    intro st
    rfl
  | cons p rest ih =>
    intro st
    obtain ⟨now, line⟩ := p
    cases hpl : parseLine line with
    | none =>
      simp only [parse_and_detect_lines, processLine, hpl, Option.toList_none, List.nil_append]
      exact ih _
    | some pr =>
      obtain ⟨u, ip⟩ := pr
      by_cases hwip : is_ip_whitelisted ip cfg.whitelist = true
      · simp only [parse_and_detect_lines, processLine, hpl, hwip, if_true, Option.toList_none,
          List.nil_append]
        exact ih _
      · have hfalse : is_ip_whitelisted ip cfg.whitelist = false := by
          simpa using hwip
        have hne : ¬ ip = a := by
          intro he
          rw [he, ha] at hfalse
          cases hfalse
        by_cases hth : cfg.failures_threshold ≤ (((st.add ip (some u) now).2 : Nat) : Int)
        · simp only [parse_and_detect_lines, processLine, hpl, hfalse, Bool.false_eq_true,
            if_false, hth, if_true, Option.toList_some, List.cons_append, List.nil_append]
          simp only [List.filter_cons]
          rw [if_neg (by simp [hne])]
          exact ih _
        · simp only [parse_and_detect_lines, processLine, hpl, hfalse, Bool.false_eq_true,
            if_false, hth, if_false, Option.toList_none, List.nil_append]
          exact ih _

/-- C8 witness: `10.1.2.3` is inside the default whitelist entry
`10.0.0.0/8`; a five-line burst from it (threshold 5) yields no decision for
that address. -/
theorem c8_whitelist_exemption_witness :
    (parse_and_detect {}
      [((100 : Int), "Failed password for root from 10.1.2.3 port 2222 ssh2"),
       ((101 : Int), "Failed password for root from 10.1.2.3 port 2222 ssh2"),
       ((102 : Int), "Failed password for root from 10.1.2.3 port 2222 ssh2"),
       ((103 : Int), "Failed password for root from 10.1.2.3 port 2222 ssh2"),
       ((104 : Int), "Failed password for root from 10.1.2.3 port 2222 ssh2")]).2.2.filter
      (fun d => decide (d.ip = "10.1.2.3")) = [] :=
  c8_whitelist_exemption {} _ "10.1.2.3" (by decide)
